import Mathlib

/-!
Verification of the gloom-rs scene-graph renderer (`src/main.rs`).

The embedding idealizes `f32` arithmetic as exact real arithmetic and models
4×4 `glm` matrices as `Matrix (Fin 4) (Fin 4) ℝ`.  The scene-graph node type
(`scene_graph.rs`), which is not part of the provided sources, is modelled
from the spec (§3, §4.1); the transform composer, the traversal and the
animation driver are translated directly from `main.rs`.
-/

namespace GloomRs

noncomputable section

open Real Matrix

/-- 3D vector of reals, modelling `glm::Vec3` with `f32` idealized as `ℝ`. -/
structure Vec3 where
  x : ℝ
  y : ℝ
  z : ℝ

/-- The zero vector `glm::vec3(0.0, 0.0, 0.0)`. -/
def Vec3.zero : Vec3 := ⟨0, 0, 0⟩

/-- The all-ones vector `glm::vec3(1.0, 1.0, 1.0)`. -/
def Vec3.one : Vec3 := ⟨1, 1, 1⟩

/-- Componentwise negation, modelling `-v` on `glm::Vec3`. -/
def Vec3.neg (v : Vec3) : Vec3 := ⟨-v.x, -v.y, -v.z⟩

/-- Componentwise addition of vectors. -/
def Vec3.add (v w : Vec3) : Vec3 := ⟨v.x + w.x, v.y + w.y, v.z + w.z⟩

/-- Componentwise (Hadamard) product, the effect of a non-uniform scale. -/
def Vec3.hmul (v w : Vec3) : Vec3 := ⟨v.x * w.x, v.y * w.y, v.z * w.z⟩

/-- 4×4 real matrix, modelling `glm::Mat4`. -/
abbrev Mat4 := Matrix (Fin 4) (Fin 4) ℝ

/-- Homogeneous coordinates of a 3D point (`w = 1`). -/
def Vec3.homog (v : Vec3) : Fin 4 → ℝ := ![v.x, v.y, v.z, 1]

/-- `glm::translation(&v)`: homogeneous translation matrix. -/
def translation (v : Vec3) : Mat4 :=
  !![1, 0, 0, v.x;
     0, 1, 0, v.y;
     0, 0, 1, v.z;
     0, 0, 0, 1]

/-- `glm::rotation(θ, &glm::vec3(1.0, 0.0, 0.0))`: rotation about the X axis. -/
def rotationX (θ : ℝ) : Mat4 :=
  !![1, 0, 0, 0;
     0, Real.cos θ, -Real.sin θ, 0;
     0, Real.sin θ, Real.cos θ, 0;
     0, 0, 0, 1]

/-- `glm::rotation(θ, &glm::vec3(0.0, 1.0, 0.0))`: rotation about the Y axis. -/
def rotationY (θ : ℝ) : Mat4 :=
  !![Real.cos θ, 0, Real.sin θ, 0;
     0, 1, 0, 0;
     -Real.sin θ, 0, Real.cos θ, 0;
     0, 0, 0, 1]

/-- `glm::rotation(θ, &glm::vec3(0.0, 0.0, 1.0))`: rotation about the Z axis. -/
def rotationZ (θ : ℝ) : Mat4 :=
  !![Real.cos θ, -Real.sin θ, 0, 0;
     Real.sin θ, Real.cos θ, 0, 0;
     0, 0, 1, 0;
     0, 0, 0, 1]

/-- `glm::scaling(&v)`: non-uniform scale matrix. -/
def scaling (v : Vec3) : Mat4 :=
  !![v.x, 0, 0, 0;
     0, v.y, 0, 0;
     0, 0, v.z, 0;
     0, 0, 0, 1]

/-- Apply a homogeneous 4×4 matrix to a 3D point (drop the `w` component,
which every matrix built by the program keeps at `1`). -/
def applyPoint (M : Mat4) (v : Vec3) : Vec3 :=
  ⟨M.mulVec v.homog 0, M.mulVec v.homog 1, M.mulVec v.homog 2⟩

/-- The per-node fields of `scene_graph::SceneNode` that `main.rs` reads and
writes: local transform parameters, the drawable handle (`vao_id`) and the
element count (`index_count`). -/
structure NodeData where
  position : Vec3
  rotation : Vec3
  scale : Vec3
  reference_point : Vec3
  vao_id : ℕ
  index_count : ℤ

/-- A scene-graph node: its own fields plus the ordered child sequence.
In Rust the children are non-owning pointers into an arena; the functional
model inlines each child subtree (the graph is a true tree per spec §3). -/
inductive SceneNode where
  | mk (data : NodeData) (children : List SceneNode)

/-- Field record of a node. -/
def SceneNode.data : SceneNode → NodeData
  | .mk d _ => d

/-- Ordered child list of a node. -/
def SceneNode.children : SceneNode → List SceneNode
  | .mk _ c => c

/-- Modelled from the spec: `SceneNode::new()` (`scene_graph.rs` is not under
`src/`).  Spec §4.1 `create_empty()`: identity translation/rotation, unit
scale, zero reference point, no payload, no children; payload absence is the
zero drawable handle (`main.rs` line 467 treats `vao_id != 0` as "has
payload"). -/
def SceneNode.new : SceneNode :=
  .mk ⟨Vec3.zero, Vec3.zero, Vec3.one, Vec3.zero, 0, 0⟩ []

/-- Modelled from the spec: `SceneNode::from_vao(vao_id, index_count)`
(`scene_graph.rs` is not under `src/`).  Spec §4.1 `create_with_payload`:
same defaults but carrying the drawable handle and element count. -/
def SceneNode.from_vao (vao : ℕ) (count : ℤ) : SceneNode :=
  .mk ⟨Vec3.zero, Vec3.zero, Vec3.one, Vec3.zero, vao, count⟩ []

/-- Modelled from the spec: `add_child` (`scene_graph.rs` is not under
`src/`).  Spec §4.1 `attach_child`: appends the child to the parent's child
sequence. -/
def SceneNode.add_child (p c : SceneNode) : SceneNode :=
  .mk p.data (p.children ++ [c])

/-- Modelled from the spec: `get_child` (`scene_graph.rs` is not under
`src/`).  Spec §4.1 `child_at(node, index)`: the child at `index` when
`index < children.len()`; the `IndexOutOfRange` hard failure is modelled as
`none`. -/
def SceneNode.get_child (n : SceneNode) (i : ℕ) : Option SceneNode :=
  n.children.get? i

/-- The local transform computed by `draw_scene` (`main.rs` lines 438–451):
`local_translation * translation_back * local_rotation * translation_to_origin
 * local_scaling` with `local_rotation = Rx * Ry * Rz`. -/
def local_transform (d : NodeData) : Mat4 :=
  translation d.position * translation d.reference_point *
      (rotationX d.rotation.x * rotationY d.rotation.y * rotationZ d.rotation.z) *
      translation d.reference_point.neg * scaling d.scale

/-- `combined_transform = transformation_so_far * local_transform`
(`main.rs` line 453). -/
def combined_transform (d : NodeData) (so_far : Mat4) : Mat4 :=
  so_far * local_transform d

/-- One OpenGL command observable from `draw_scene`: either the pair of
per-draw uniform uploads (`transformMatrix` ← mvp, `modelMatrix` ← model,
`main.rs` lines 457–465) or an indexed draw (`gl::DrawElements`, lines
467–476). -/
inductive GLCmd where
  | setUniforms (mvp model : Mat4)
  | drawElements (vao : ℕ) (count : ℤ)

mutual

/-- The command trace of `draw_scene(node, view_projection_matrix,
transformation_so_far, _)` (`main.rs` lines 432–486): set both uniforms,
draw iff `vao_id != 0`, then recurse into the children with the combined
transform. -/
def draw_scene (n : SceneNode) (vp so_far : Mat4) : List GLCmd :=
  match n with
  | .mk d cs =>
    GLCmd.setUniforms (vp * (so_far * local_transform d)) (so_far * local_transform d) ::
      ((if d.vao_id ≠ 0 then [GLCmd.drawElements d.vao_id d.index_count] else []) ++
        draw_children cs vp (so_far * local_transform d))

/-- The `for &child in &node.children` loop of `draw_scene` (`main.rs`
lines 478–485). -/
def draw_children (ns : List SceneNode) (vp so_far : Mat4) : List GLCmd :=
  match ns with
  | [] => []
  | c :: rest => draw_scene c vp so_far ++ draw_children rest vp so_far

end

/-- Project a command trace onto its draw calls, as `(vao, element count)`
pairs in issue order. -/
def drawCalls : List GLCmd → List (ℕ × ℤ)
  | [] => []
  | GLCmd.drawElements v c :: rest => (v, c) :: drawCalls rest
  | GLCmd.setUniforms _ _ :: rest => drawCalls rest

/-- Number of uniform-upload events in a trace (one per visited node). -/
def uniformCount : List GLCmd → ℕ
  | [] => 0
  | GLCmd.setUniforms _ _ :: rest => uniformCount rest + 1
  | GLCmd.drawElements _ _ :: rest => uniformCount rest

mutual

/-- The visit order of `draw_scene`'s recursion: the node itself, then the
children's subtrees in child-list order. -/
def visit (n : SceneNode) : List SceneNode :=
  match n with
  | .mk d cs => .mk d cs :: visitChildren cs

/-- Visit order of a child list, left to right. -/
def visitChildren (ns : List SceneNode) : List SceneNode :=
  match ns with
  | [] => []
  | c :: rest => visit c ++ visitChildren rest

end

mutual

/-- Number of nodes in a subtree. -/
def size (n : SceneNode) : ℕ :=
  match n with
  | .mk _ cs => sizeChildren cs + 1

/-- Total number of nodes in a list of subtrees. -/
def sizeChildren (ns : List SceneNode) : ℕ :=
  match ns with
  | [] => 0
  | c :: rest => size c + sizeChildren rest

end

/-! ### Matrix algebra helper lemmas -/

theorem Vec3.add_neg (v : Vec3) : v.add v.neg = Vec3.zero := by
  cases v; simp [Vec3.add, Vec3.neg, Vec3.zero]

theorem translation_mul (a b : Vec3) :
    translation a * translation b = translation (a.add b) := by
  ext i j
  fin_cases i <;> fin_cases j <;>
    simp [translation, Vec3.add, Matrix.mul_apply, Fin.sum_univ_four,
      Matrix.vecHead, Matrix.vecTail] <;> ring

theorem translation_zero : translation Vec3.zero = 1 := by
  ext i j
  fin_cases i <;> fin_cases j <;>
    simp [translation, Vec3.zero, Matrix.one_apply, Matrix.vecHead, Matrix.vecTail]

theorem rotationX_zero : rotationX 0 = 1 := by
  ext i j
  fin_cases i <;> fin_cases j <;>
    simp [rotationX, Matrix.one_apply, Matrix.vecHead, Matrix.vecTail]

theorem rotationY_zero : rotationY 0 = 1 := by
  ext i j
  fin_cases i <;> fin_cases j <;>
    simp [rotationY, Matrix.one_apply, Matrix.vecHead, Matrix.vecTail]

theorem rotationZ_zero : rotationZ 0 = 1 := by
  ext i j
  fin_cases i <;> fin_cases j <;>
    simp [rotationZ, Matrix.one_apply, Matrix.vecHead, Matrix.vecTail]

theorem scaling_one : scaling Vec3.one = 1 := by
  ext i j
  fin_cases i <;> fin_cases j <;>
    simp [scaling, Vec3.one, Matrix.one_apply, Matrix.vecHead, Matrix.vecTail]

theorem rotationX_mul_neg (θ : ℝ) : rotationX θ * rotationX (-θ) = 1 := by
  ext i j
  fin_cases i <;> fin_cases j <;>
    simp [rotationX, Matrix.mul_apply, Fin.sum_univ_four, Matrix.one_apply,
      Matrix.vecHead, Matrix.vecTail] <;>
    nlinarith [Real.sin_sq_add_cos_sq θ]

theorem rotationY_mul_neg (θ : ℝ) : rotationY θ * rotationY (-θ) = 1 := by
  ext i j
  fin_cases i <;> fin_cases j <;>
    simp [rotationY, Matrix.mul_apply, Fin.sum_univ_four, Matrix.one_apply,
      Matrix.vecHead, Matrix.vecTail] <;>
    nlinarith [Real.sin_sq_add_cos_sq θ]

theorem rotationZ_mul_neg (θ : ℝ) : rotationZ θ * rotationZ (-θ) = 1 := by
  ext i j
  fin_cases i <;> fin_cases j <;>
    simp [rotationZ, Matrix.mul_apply, Fin.sum_univ_four, Matrix.one_apply,
      Matrix.vecHead, Matrix.vecTail] <;>
    nlinarith [Real.sin_sq_add_cos_sq θ]

theorem translation_mulVec (v p : Vec3) :
    (translation v).mulVec p.homog = (p.add v).homog := by
  funext i
  fin_cases i <;>
    simp [translation, Vec3.homog, Vec3.add, Matrix.mulVec, Matrix.dotProduct,
      Fin.sum_univ_four, Matrix.vecHead, Matrix.vecTail]

theorem scaling_mulVec (s p : Vec3) :
    (scaling s).mulVec p.homog = (s.hmul p).homog := by
  funext i
  fin_cases i <;>
    simp [scaling, Vec3.homog, Vec3.hmul, Matrix.mulVec, Matrix.dotProduct,
      Fin.sum_univ_four, Matrix.vecHead, Matrix.vecTail]

theorem Mat4.one_def :
    (1 : Mat4) = !![1, 0, 0, 0; 0, 1, 0, 0; 0, 0, 1, 0; 0, 0, 0, 1] := by
  ext i j
  fin_cases i <;> fin_cases j <;>
    simp [Matrix.one_apply, Matrix.vecHead, Matrix.vecTail]

theorem Mat4.isUnit_of_mul_eq_one {A B : Mat4} (h : A * B = 1) : IsUnit A :=
  ⟨⟨A, B, h, Matrix.mul_eq_one_comm.mp h⟩, rfl⟩

theorem isUnit_translation (v : Vec3) : IsUnit (translation v) :=
  Mat4.isUnit_of_mul_eq_one (by rw [translation_mul, Vec3.add_neg, translation_zero])

theorem isUnit_rotationX (θ : ℝ) : IsUnit (rotationX θ) :=
  Mat4.isUnit_of_mul_eq_one (rotationX_mul_neg θ)

theorem isUnit_rotationY (θ : ℝ) : IsUnit (rotationY θ) :=
  Mat4.isUnit_of_mul_eq_one (rotationY_mul_neg θ)

theorem isUnit_rotationZ (θ : ℝ) : IsUnit (rotationZ θ) :=
  Mat4.isUnit_of_mul_eq_one (rotationZ_mul_neg θ)

/-- A node whose `scale` is the unit vector has an invertible local transform. -/
theorem isUnit_local_transform (d : NodeData) (hs : d.scale = Vec3.one) :
    IsUnit (local_transform d) := by
  rw [local_transform, hs, scaling_one]
  exact ((((isUnit_translation _).mul (isUnit_translation _)).mul
    (((isUnit_rotationX _).mul (isUnit_rotationY _)).mul (isUnit_rotationZ _))).mul
    (isUnit_translation _)).mul isUnit_one

/-! ### Claims about the transform composer -/

/-- Claim C1: for every node and accumulated ancestor transform, the composer
produces `world_transform = transform_so_far · translate(position) ·
translate(reference_point) · local_rotation · translate(−reference_point) ·
local_scale`, where `local_rotation = Rx · Ry · Rz` (multiplied in the order
X·Y·Z; Z is innermost when the product is applied to a point). -/
theorem composer_composition_order (d : NodeData) (so_far : Mat4) :
    combined_transform d so_far =
      so_far * translation d.position * translation d.reference_point *
        (rotationX d.rotation.x * rotationY d.rotation.y * rotationZ d.rotation.z) *
        translation d.reference_point.neg * scaling d.scale ∧
    ∀ v : Fin 4 → ℝ,
      (rotationX d.rotation.x * rotationY d.rotation.y * rotationZ d.rotation.z).mulVec v =
        (rotationX d.rotation.x).mulVec ((rotationY d.rotation.y).mulVec
          ((rotationZ d.rotation.z).mulVec v)) := by
  constructor
  · simp only [combined_transform, local_transform, Matrix.mul_assoc]
  · intro v
    simp only [Matrix.mulVec_mulVec, Matrix.mul_assoc]

/-- Claim C2 counterexample: the claim "for a node with `reference_point = r`,
`scale = s`, zero rotation and `transform_so_far = I`, the world transform
applied to the point `r` yields exactly `r + position`" is false on the code.
At `r = (1,0,0)`, `s = (2,2,2)`, `position = 0` the world transform maps `r`
to `(2,0,0)`, not `r + position = (1,0,0)`: in `draw_scene` only the rotation
is conjugated by the pivot translations, the scale acts about the local
origin. -/
theorem composer_pivot_counterexample :
    applyPoint
        (combined_transform ⟨⟨0, 0, 0⟩, ⟨0, 0, 0⟩, ⟨2, 2, 2⟩, ⟨1, 0, 0⟩, 0, 0⟩ 1)
        ⟨1, 0, 0⟩ ≠
      (Vec3.mk 1 0 0).add ⟨0, 0, 0⟩ := by
  simp only [combined_transform, local_transform, applyPoint, Vec3.neg, Vec3.homog,
    Vec3.add, ne_eq, Vec3.mk.injEq, not_and]
  norm_num [translation, rotationX, rotationY, rotationZ, scaling, Matrix.mulVec,
    Matrix.dotProduct, Matrix.mul_apply, Fin.sum_univ_four, Matrix.vecHead,
    Matrix.vecTail, Matrix.one_apply, Real.cos_zero, Real.sin_zero]

/-- Claim C2 amended: for a node with `reference_point = r`, `scale = s`, zero
rotation and `transform_so_far = I`, the world transform applied to the point
`r` yields `s ∘ r + position` (componentwise scale of `r`, then translation);
this equals `r + position` only when the scale leaves `r` fixed, because the
pivot conjugation wraps the rotation alone. -/
theorem composer_pivot_scale_behaviour (r s pos : Vec3) (vao : ℕ) (cnt : ℤ) :
    applyPoint (combined_transform ⟨pos, ⟨0, 0, 0⟩, s, r, vao, cnt⟩ 1) r =
      (s.hmul r).add pos := by
  simp only [combined_transform, local_transform, applyPoint, Vec3.neg, Vec3.homog,
    Vec3.add, Vec3.hmul]
  norm_num [translation, rotationX, rotationY, rotationZ, scaling, Matrix.mulVec,
    Matrix.dotProduct, Matrix.mul_apply, Fin.sum_univ_four, Matrix.vecHead,
    Matrix.vecTail, Real.cos_zero, Real.sin_zero, Vec3.mk.injEq, Mat4.one_def]

/-- Claim C5: for every `transform_so_far = M`, a node with identity position
and rotation, unit scale and zero reference point (and any payload fields)
composes to exactly `M`: the composer's local transform is the identity. -/
theorem composer_identity_node (vao : ℕ) (cnt : ℤ) (M : Mat4) :
    combined_transform ⟨Vec3.zero, Vec3.zero, Vec3.one, Vec3.zero, vao, cnt⟩ M = M := by
  have hz : Vec3.zero.neg = Vec3.zero := by simp [Vec3.neg, Vec3.zero]
  simp only [combined_transform, local_transform, hz]
  rw [show Vec3.zero.x = 0 from rfl, show Vec3.zero.y = 0 from rfl,
    show Vec3.zero.z = 0 from rfl]
  rw [translation_zero, rotationX_zero, rotationY_zero, rotationZ_zero, scaling_one]
  simp

/-- Claim C6: the composer is a pure function of the node's transform fields
and the accumulated parent transform: any two nodes agreeing on `position`,
`rotation`, `scale` and `reference_point` — regardless of payload, children
or any other state — compose to identical results with the same
`transform_so_far`. -/
theorem composer_purity (n₁ n₂ : SceneNode) (M : Mat4)
    (hp : n₁.data.position = n₂.data.position)
    (hr : n₁.data.rotation = n₂.data.rotation)
    (hs : n₁.data.scale = n₂.data.scale)
    (href : n₁.data.reference_point = n₂.data.reference_point) :
    combined_transform n₁.data M = combined_transform n₂.data M := by
  simp only [combined_transform, local_transform, hp, hr, hs, href]

/-- Witness for C6: two nodes with identical transform fields but different
payloads and children compose identically. -/
theorem composer_purity_witness :
    combined_transform
        (SceneNode.mk ⟨Vec3.zero, Vec3.zero, Vec3.one, Vec3.zero, 5, 7⟩ []).data 1 =
      combined_transform
        (SceneNode.mk ⟨Vec3.zero, Vec3.zero, Vec3.one, Vec3.zero, 9, 3⟩
          [SceneNode.new]).data 1 :=
  composer_purity
    (SceneNode.mk ⟨Vec3.zero, Vec3.zero, Vec3.one, Vec3.zero, 5, 7⟩ [])
    (SceneNode.mk ⟨Vec3.zero, Vec3.zero, Vec3.one, Vec3.zero, 9, 3⟩ [SceneNode.new])
    1 rfl rfl rfl rfl

/-! ### Traversal helper lemmas -/

theorem drawCalls_append (a b : List GLCmd) :
    drawCalls (a ++ b) = drawCalls a ++ drawCalls b := by
  induction a with
  | nil => simp [drawCalls]
  | cons c rest ih => cases c <;> simp [drawCalls, ih]

theorem uniformCount_append (a b : List GLCmd) :
    uniformCount (a ++ b) = uniformCount a + uniformCount b := by
  induction a with
  | nil => simp [uniformCount]
  | cons c rest ih =>
    cases c with
    | setUniforms m1 m2 => simp [uniformCount, ih]; omega
    | drawElements v k => simp [uniformCount, ih]

theorem visitChildren_flatten (ns : List SceneNode) :
    visitChildren ns = (ns.map visit).flatten := by
  induction ns with
  | nil => simp [visitChildren]
  | cons c rest ih => simp [visitChildren, ih]

mutual

theorem visit_length (n : SceneNode) : (visit n).length = size n := by
  match n with
  | .mk d cs =>
    simp [visit, size, visitChildren_length cs]

theorem visitChildren_length (ns : List SceneNode) :
    (visitChildren ns).length = sizeChildren ns := by
  match ns with
  | [] => simp [visitChildren, sizeChildren]
  | c :: rest =>
    simp [visitChildren, sizeChildren, visit_length c, visitChildren_length rest]

end

mutual

theorem uniformCount_draw_scene (n : SceneNode) (vp so_far : Mat4) :
    uniformCount (draw_scene n vp so_far) = size n := by
  match n with
  | .mk d cs =>
    by_cases hv : d.vao_id = 0 <;>
      simp [draw_scene, size, uniformCount, hv, uniformCount_append,
        uniformCount_draw_children cs]

theorem uniformCount_draw_children (ns : List SceneNode) (vp so_far : Mat4) :
    uniformCount (draw_children ns vp so_far) = sizeChildren ns := by
  match ns with
  | [] => simp [draw_children, uniformCount, sizeChildren]
  | c :: rest =>
    simp [draw_children, sizeChildren, uniformCount_append,
      uniformCount_draw_scene c, uniformCount_draw_children rest]

end

/-! ### Claims about traversal and dispatch -/

/-- Claim C3: for every visited node, both per-draw uniforms are set to
`mvp = view_projection · world` and to `world`, exactly one indexed draw for
`index_count` elements is issued when the node carries a payload, and no draw
is issued otherwise while the children are still traversed; on the tree
root → A (payload, 100 elements) → B (no payload) → C (payload, 6 elements)
exactly two draw calls are issued, A's then C's. -/
theorem draw_dispatch (d : NodeData) (cs : List SceneNode) (vp so_far vp' : Mat4) :
    draw_scene (.mk d cs) vp so_far =
      GLCmd.setUniforms (vp * combined_transform d so_far) (combined_transform d so_far) ::
        ((if d.vao_id ≠ 0 then [GLCmd.drawElements d.vao_id d.index_count] else []) ++
          draw_children cs vp (combined_transform d so_far)) ∧
    drawCalls
        (draw_scene
          (SceneNode.new.add_child
            ((SceneNode.from_vao 1 100).add_child
              (SceneNode.new.add_child (SceneNode.from_vao 2 6))))
          vp' 1) =
      [(1, 100), (2, 6)] := by
  constructor
  · simp [draw_scene, combined_transform]
  · simp [draw_scene, draw_children, drawCalls, SceneNode.new, SceneNode.from_vao,
      SceneNode.add_child, SceneNode.data, SceneNode.children]

/-- Claim C4: traversal visits every attached node exactly once, in
depth-first pre-order (each node before its descendants), siblings in
attachment order: the visit sequence is the node followed by the children's
visit sequences in child-list order, its length equals the tree size, the
actual `draw_scene` trace contains exactly one uniform upload per node of the
tree, and `add_child` appends to the child sequence. -/
theorem traversal_preorder (n p c : SceneNode) (vp so_far : Mat4) :
    visit n = n :: (n.children.map visit).flatten ∧
    (visit n).length = size n ∧
    uniformCount (draw_scene n vp so_far) = size n ∧
    (p.add_child c).children = p.children ++ [c] := by
  refine ⟨?_, visit_length n, uniformCount_draw_scene n vp so_far, rfl⟩
  cases n with
  | mk d cs => simp [visit, visitChildren_flatten, SceneNode.children]

/-- Claim C9: `get_child` returns the child at the requested position when
`index < children.len()` and fails (the `IndexOutOfRange` hard failure,
modelled as `none`) when `index ≥ children.len()`. -/
theorem get_child_bounds (n : SceneNode) (i : ℕ) :
    n.get_child i =
      if h : i < n.children.length then some (n.children.get ⟨i, h⟩) else none := by
  by_cases h : i < n.children.length
  · simp [SceneNode.get_child, h, List.get?_eq_get]
  · simp [SceneNode.get_child, h, List.get?_eq_none]
    omega

/-- Claim C10: payload absence is encoded as `vao_id = 0`: the two uniform
matrices are set regardless of payload, the indexed draw is issued iff
`vao_id ≠ 0`, and a node with `vao_id = 0` produces a trace independent of
its element count (indistinguishable from a payload-less node). -/
theorem draw_guard_vao (d : NodeData) (cs : List SceneNode) (vp so_far : Mat4) :
    (∃ rest, draw_scene (.mk d cs) vp so_far =
      GLCmd.setUniforms (vp * combined_transform d so_far)
        (combined_transform d so_far) :: rest) ∧
    drawCalls (draw_scene (.mk d cs) vp so_far) =
      (if d.vao_id ≠ 0 then [(d.vao_id, d.index_count)] else []) ++
        drawCalls (draw_children cs vp (combined_transform d so_far)) ∧
    (∀ cnt cnt' : ℤ,
      draw_scene (.mk ⟨d.position, d.rotation, d.scale, d.reference_point, 0, cnt⟩ cs)
          vp so_far =
        draw_scene (.mk ⟨d.position, d.rotation, d.scale, d.reference_point, 0, cnt'⟩ cs)
          vp so_far) := by
  refine ⟨⟨(if d.vao_id ≠ 0 then [GLCmd.drawElements d.vao_id d.index_count] else []) ++
    draw_children cs vp (combined_transform d so_far),
    by simp [draw_scene, combined_transform]⟩, ?_, ?_⟩
  · by_cases hv : d.vao_id = 0 <;>
      simp [draw_scene, drawCalls, drawCalls_append, hv, combined_transform]
  · intro cnt cnt'
    simp [draw_scene, local_transform]

/-! ### Animation driver (`main.rs` lines 284–309 and 404–422) -/

/-- The fields of `toolbox::Heading` that the driver reads (`main.rs`
lines 416–421): planar position plus the three Euler angles. -/
structure Heading where
  x : ℝ
  z : ℝ
  pitch : ℝ
  yaw : ℝ
  roll : ℝ

/-- One helicopter as built by the scene-setup loop (`main.rs` lines
284–309): an empty root whose single child is the body (payload, zero
reference point) carrying door, main rotor (zero reference point) and tail
rotor (reference point `(0.35, 2.3, 10.4)`), attached in that order. -/
def build_helicopter (bv dv mv tv : ℕ) (bc dc mc tc : ℤ) : SceneNode :=
  let body := SceneNode.mk
    ⟨Vec3.zero, Vec3.zero, Vec3.one, Vec3.zero, bv, bc⟩ []
  let door := SceneNode.from_vao dv dc
  let main_rotor := SceneNode.mk
    ⟨Vec3.zero, Vec3.zero, Vec3.one, Vec3.zero, mv, mc⟩ []
  let tail_rotor := SceneNode.mk
    ⟨Vec3.zero, Vec3.zero, Vec3.one, ⟨0.35, 2.3, 10.4⟩, tv, tc⟩ []
  SceneNode.new.add_child
    (((body.add_child door).add_child main_rotor).add_child tail_rotor)

/-- The per-helicopter animation step (`main.rs` lines 408–421), for one
already-offset time `t = helicopter_elapsed`.  `heading` abstracts
`toolbox::simple_heading_animation`, which is not under `src/`; the spec
(§4.4) describes it only as a procedurally generated path, so it stays an
arbitrary function of time.  The driver sets the main rotor's `rotation.y`
to `t * 10`, the tail rotor's `rotation.x` to `t * 20`, and the body's
planar position and all three rotation angles from the heading sample.
The Rust `get_child` panics on a missing child; that is modelled as `none`. -/
def animate_helicopter (heading : ℝ → Heading) (t : ℝ)
    (heli : SceneNode) : Option SceneNode :=
  match heli.get_child 0 with
  | none => none
  | some body =>
    match body.get_child 1, body.get_child 2 with
    | some mr, some tr =>
      let mr' := SceneNode.mk
        { mr.data with rotation := ⟨mr.data.rotation.x, t * 10, mr.data.rotation.z⟩ }
        mr.children
      let tr' := SceneNode.mk
        { tr.data with rotation := ⟨t * 20, tr.data.rotation.y, tr.data.rotation.z⟩ }
        tr.children
      let h := heading t
      let body' := SceneNode.mk
        { body.data with
            position := ⟨h.x, body.data.position.y, h.z⟩,
            rotation := ⟨h.pitch, h.yaw, h.roll⟩ }
        ((body.children.set 1 mr').set 2 tr')
      some (SceneNode.mk heli.data (heli.children.set 0 body'))
    | _, _ => none

/-- The `for (i, helicopter) in helicopters.iter_mut().enumerate()` loop
(`main.rs` lines 404–422), carrying the running index: helicopter `i` is
animated at `helicopter_elapsed = elapsed + i * 0.8`. -/
def animate_from (heading : ℝ → Heading) (elapsed : ℝ) :
    ℕ → List SceneNode → Option (List SceneNode)
  | _, [] => some []
  | i, h :: rest =>
    match animate_helicopter heading (elapsed + i * 0.8) h,
        animate_from heading elapsed (i + 1) rest with
    | some h', some rest' => some (h' :: rest')
    | _, _ => none

/-- One whole animation pass over the helicopter vector. -/
def animate_all (heading : ℝ → Heading) (elapsed : ℝ)
    (helis : List SceneNode) : Option (List SceneNode) :=
  animate_from heading elapsed 0 helis

/-- The structural (non-pose) content of a node: everything except
`position` and `rotation`, with the child structure preserved. -/
inductive StaticTree where
  | mk (scale reference_point : Vec3) (vao_id : ℕ) (index_count : ℤ)
      (children : List StaticTree)

mutual

/-- Project a subtree onto its structural content. -/
def statics (n : SceneNode) : StaticTree :=
  match n with
  | .mk d cs => .mk d.scale d.reference_point d.vao_id d.index_count (staticsChildren cs)

/-- Project a child list onto its structural content. -/
def staticsChildren (ns : List SceneNode) : List StaticTree :=
  match ns with
  | [] => []
  | c :: rest => statics c :: staticsChildren rest

end

/-- World transform of a node given its ancestors' accumulated transform,
exactly as `draw_scene` computes it. -/
def node_world (so_far : Mat4) (n : SceneNode) : Mat4 :=
  combined_transform n.data so_far

/-- The pair (body world transform, main-rotor world transform) of a
helicopter subtree, accumulated from the identity the way `draw_scene`
accumulates down the root → body → main-rotor path. -/
def heli_config (heli : SceneNode) : Option (Mat4 × Mat4) :=
  match heli.get_child 0 with
  | none => none
  | some body =>
    match body.get_child 1 with
    | none => none
    | some mr =>
      let wbody := node_world (node_world 1 heli) body
      some (wbody, node_world wbody mr)

/-! ### Animation helper lemmas -/

theorem Vec3.neg_zero : Vec3.zero.neg = Vec3.zero := by
  simp [Vec3.neg, Vec3.zero]

theorem local_transform_identity (vao : ℕ) (cnt : ℤ) :
    local_transform ⟨Vec3.zero, Vec3.zero, Vec3.one, Vec3.zero, vao, cnt⟩ = 1 := by
  simp only [local_transform, Vec3.neg_zero]
  rw [show Vec3.zero.x = 0 from rfl, show Vec3.zero.y = 0 from rfl,
    show Vec3.zero.z = 0 from rfl]
  rw [translation_zero, rotationX_zero, rotationY_zero, rotationZ_zero, scaling_one]
  simp

theorem local_transform_rotY (θ : ℝ) (vao : ℕ) (cnt : ℤ) :
    local_transform ⟨Vec3.zero, ⟨0, θ, 0⟩, Vec3.one, Vec3.zero, vao, cnt⟩ =
      rotationY θ := by
  simp only [local_transform, Vec3.neg_zero]
  rw [translation_zero, rotationX_zero, rotationZ_zero, scaling_one]
  simp

/-- The helicopter subtree after one animation step at offset time `t`:
body pose taken from the heading sample, main rotor spun to `t * 10` about Y,
tail rotor spun to `t * 20` about X; everything else as built. -/
def animated_heli (heading : ℝ → Heading) (t : ℝ) (bv dv mv tv : ℕ)
    (bc dc mc tc : ℤ) : SceneNode :=
  SceneNode.mk ⟨Vec3.zero, Vec3.zero, Vec3.one, Vec3.zero, 0, 0⟩
    [SceneNode.mk
      ⟨⟨(heading t).x, 0, (heading t).z⟩,
       ⟨(heading t).pitch, (heading t).yaw, (heading t).roll⟩,
       Vec3.one, Vec3.zero, bv, bc⟩
      [SceneNode.from_vao dv dc,
       SceneNode.mk ⟨Vec3.zero, ⟨0, t * 10, 0⟩, Vec3.one, Vec3.zero, mv, mc⟩ [],
       SceneNode.mk ⟨Vec3.zero, ⟨t * 20, 0, 0⟩, Vec3.one, ⟨0.35, 2.3, 10.4⟩, tv, tc⟩ []]]

theorem animate_build (heading : ℝ → Heading) (t : ℝ) (bv dv mv tv : ℕ)
    (bc dc mc tc : ℤ) :
    animate_helicopter heading t (build_helicopter bv dv mv tv bc dc mc tc) =
      some (animated_heli heading t bv dv mv tv bc dc mc tc) := by
  simp [animate_helicopter, build_helicopter, animated_heli, SceneNode.new,
    SceneNode.from_vao, SceneNode.add_child, SceneNode.get_child, SceneNode.data,
    SceneNode.children, Vec3.zero, List.set]

theorem statics_animated (heading : ℝ → Heading) (t : ℝ) (bv dv mv tv : ℕ)
    (bc dc mc tc : ℤ) :
    statics (animated_heli heading t bv dv mv tv bc dc mc tc) =
      statics (build_helicopter bv dv mv tv bc dc mc tc) := by
  simp [animated_heli, build_helicopter, statics, staticsChildren, SceneNode.new,
    SceneNode.from_vao, SceneNode.add_child, SceneNode.data, SceneNode.children,
    Vec3.zero]

/-- The animated body's local (= world, under identity ancestors) transform. -/
def body_world (heading : ℝ → Heading) (t : ℝ) (bv : ℕ) (bc : ℤ) : Mat4 :=
  local_transform
    ⟨⟨(heading t).x, 0, (heading t).z⟩,
     ⟨(heading t).pitch, (heading t).yaw, (heading t).roll⟩,
     Vec3.one, Vec3.zero, bv, bc⟩

theorem heli_config_animated (heading : ℝ → Heading) (t : ℝ) (bv dv mv tv : ℕ)
    (bc dc mc tc : ℤ) :
    heli_config (animated_heli heading t bv dv mv tv bc dc mc tc) =
      some (body_world heading t bv bc,
        body_world heading t bv bc * rotationY (t * 10)) := by
  simp [heli_config, animated_heli, node_world, combined_transform, body_world,
    SceneNode.get_child, SceneNode.data, SceneNode.children, SceneNode.from_vao,
    local_transform_identity, local_transform_rotY]

theorem rotationY_phase (a b : ℝ) (h : rotationY a = rotationY b) :
    ∃ n : ℤ, (n : ℝ) * (2 * π) = a - b := by
  have hc : Real.cos a = Real.cos b := by
    have h00 := congrFun (congrFun h 0) 0
    simpa [rotationY, Matrix.vecHead, Matrix.vecTail] using h00
  have hs : Real.sin a = Real.sin b := by
    have h02 := congrFun (congrFun h 0) 2
    simpa [rotationY, Matrix.vecHead, Matrix.vecTail] using h02
  have h1 : Real.cos (a - b) = 1 := by
    rw [Real.cos_sub, hc, hs]
    nlinarith [Real.sin_sq_add_cos_sq b]
  exact (Real.cos_eq_one_iff (a - b)).mp h1

theorem eight_mul_ne_two_pi (z n : ℤ) (hz : z ≠ 0)
    (h : (n : ℝ) * (2 * π) = 8 * (z : ℝ)) : False := by
  have hn : n ≠ 0 := by
    rintro rfl
    rw [Int.cast_zero, zero_mul] at h
    have : (z : ℝ) = 0 := by linarith
    exact hz (by exact_mod_cast this)
  refine irrational_pi ⟨(4 * z : ℚ) / (n : ℚ), ?_⟩
  have hn' : (n : ℝ) ≠ 0 := Int.cast_ne_zero.mpr hn
  push_cast
  field_simp
  linarith

theorem animated_config_ne (heading : ℝ → Heading) (t s : ℝ) (bv dv mv tv : ℕ)
    (bc dc mc tc : ℤ)
    (hts : ∀ n : ℤ, (n : ℝ) * (2 * π) ≠ t * 10 - s * 10) :
    heli_config (animated_heli heading t bv dv mv tv bc dc mc tc) ≠
      heli_config (animated_heli heading s bv dv mv tv bc dc mc tc) := by
  rw [heli_config_animated, heli_config_animated]
  intro h
  have h' := Option.some.inj h
  have hB : body_world heading t bv bc = body_world heading s bv bc :=
    congrArg Prod.fst h'
  have hR : body_world heading t bv bc * rotationY (t * 10) =
      body_world heading s bv bc * rotationY (s * 10) := congrArg Prod.snd h'
  rw [← hB] at hR
  have hU : IsUnit (body_world heading t bv bc) := isUnit_local_transform _ rfl
  obtain ⟨n, hn⟩ := rotationY_phase _ _ (hU.mul_left_cancel hR)
  exact hts n hn

/-- The five helicopters after one animation pass: helicopter `k` is the
single-helicopter animation evaluated at `elapsed + k * 0.8`. -/
def fleet_result (heading : ℝ → Heading) (elapsed : ℝ) (bv dv mv tv : ℕ)
    (bc dc mc tc : ℤ) : List SceneNode :=
  (List.range 5).map
    (fun k => animated_heli heading (elapsed + k * 0.8) bv dv mv tv bc dc mc tc)

theorem animate_all_fleet (heading : ℝ → Heading) (elapsed : ℝ) (bv dv mv tv : ℕ)
    (bc dc mc tc : ℤ) :
    animate_all heading elapsed
        (List.replicate 5 (build_helicopter bv dv mv tv bc dc mc tc)) =
      some (fleet_result heading elapsed bv dv mv tv bc dc mc tc) := by
  simp [animate_all, animate_from, animate_build, fleet_result,
    show List.range 5 = [0, 1, 2, 3, 4] from rfl, List.replicate]

theorem fleet_statics (heading : ℝ → Heading) (elapsed : ℝ) (bv dv mv tv : ℕ)
    (bc dc mc tc : ℤ) :
    (fleet_result heading elapsed bv dv mv tv bc dc mc tc).map statics =
      (List.replicate 5 (build_helicopter bv dv mv tv bc dc mc tc)).map statics := by
  simp [fleet_result, show List.range 5 = [0, 1, 2, 3, 4] from rfl,
    List.replicate, statics_animated]

theorem fleet_get (heading : ℝ → Heading) (elapsed : ℝ) (bv dv mv tv : ℕ)
    (bc dc mc tc : ℤ) (k : ℕ) (hk : k < 5) :
    (fleet_result heading elapsed bv dv mv tv bc dc mc tc).get? k =
      animate_helicopter heading (elapsed + k * 0.8)
        (build_helicopter bv dv mv tv bc dc mc tc) := by
  interval_cases k <;>
    simp [fleet_result, show List.range 5 = [0, 1, 2, 3, 4] from rfl, animate_build]

/-! ### Claims about the animation driver -/

/-- Claim C7: animating the five identical sibling helicopters with per-object
offsets `i · 0.8` makes helicopter `i` equal to the single-helicopter
animation evaluated at `elapsed + i · 0.8`, and gives any two distinct
helicopters distinct world transforms: their (body, main rotor) world
transform pairs differ at every elapsed time, because the main rotor phases
differ by `8(i−j)`, never a multiple of `2π`. -/
theorem helicopter_fleet_offsets (heading : ℝ → Heading) (elapsed : ℝ)
    (bv dv mv tv : ℕ) (bc dc mc tc : ℤ) (i j : ℕ)
    (hi : i < 5) (hj : j < 5) (hij : i ≠ j) :
    ∃ l, animate_all heading elapsed
          (List.replicate 5 (build_helicopter bv dv mv tv bc dc mc tc)) = some l ∧
      l.length = 5 ∧
      (∀ k, k < 5 → l.get? k =
        animate_helicopter heading (elapsed + k * 0.8)
          (build_helicopter bv dv mv tv bc dc mc tc)) ∧
      (l.get? i).bind heli_config ≠ (l.get? j).bind heli_config := by
  refine ⟨fleet_result heading elapsed bv dv mv tv bc dc mc tc,
    animate_all_fleet heading elapsed bv dv mv tv bc dc mc tc,
    rfl,
    fun k hk => fleet_get heading elapsed bv dv mv tv bc dc mc tc k hk, ?_⟩
  rw [fleet_get heading elapsed bv dv mv tv bc dc mc tc i hi,
    fleet_get heading elapsed bv dv mv tv bc dc mc tc j hj,
    animate_build, animate_build]
  simp only [Option.some_bind]
  apply animated_config_ne
  intro n hn
  apply eight_mul_ne_two_pi (i - j : ℤ) n
  · rw [sub_ne_zero]
    exact_mod_cast hij
  · rw [hn]
    push_cast
    ring

/-- Witness for C7 at a concrete heading function, elapsed time, payload
handles and indices 0 and 1. -/
theorem helicopter_fleet_offsets_witness :
    (0 : ℕ) < 5 ∧ (1 : ℕ) < 5 ∧ (0 : ℕ) ≠ 1 ∧
    (∃ l, animate_all (fun _ => ⟨0, 0, 0, 0, 0⟩) 0
          (List.replicate 5 (build_helicopter 1 2 3 4 1 1 1 1)) = some l ∧
      l.length = 5 ∧
      (∀ k, k < 5 → l.get? k =
        animate_helicopter (fun _ => ⟨0, 0, 0, 0, 0⟩) (0 + k * 0.8)
          (build_helicopter 1 2 3 4 1 1 1 1)) ∧
      (l.get? 0).bind heli_config ≠ (l.get? 1).bind heli_config) :=
  ⟨by norm_num, by norm_num, by norm_num,
    helicopter_fleet_offsets (fun _ => ⟨0, 0, 0, 0, 0⟩) 0 1 2 3 4 1 1 1 1 0 1
      (by norm_num) (by norm_num) (by norm_num)⟩

/-- Claim C8: one animation pass over the helicopter fleet succeeds, keeps
exactly the five helicopters (no node created or destroyed), and leaves every
node's scale, reference point, payload (drawable handle and element count)
and child structure unchanged: the statics projection of every helicopter is
untouched, so only `position` and `rotation` fields are mutated. -/
theorem animation_frame_effect (heading : ℝ → Heading) (elapsed : ℝ)
    (bv dv mv tv : ℕ) (bc dc mc tc : ℤ) :
    ∃ l, animate_all heading elapsed
          (List.replicate 5 (build_helicopter bv dv mv tv bc dc mc tc)) = some l ∧
      l.length = 5 ∧
      l.map statics =
        (List.replicate 5 (build_helicopter bv dv mv tv bc dc mc tc)).map statics :=
  ⟨fleet_result heading elapsed bv dv mv tv bc dc mc tc,
    animate_all_fleet heading elapsed bv dv mv tv bc dc mc tc,
    rfl,
    fleet_statics heading elapsed bv dv mv tv bc dc mc tc⟩

end

end GloomRs
